import Mathlib

/-!
Shallow embedding of `dulwich/porcelain.py`, a porcelain-like layer on top of a
content-addressed object store, a ref store, and a transport client.

The only source file available is `porcelain.py`; the collaborators it calls
(`dulwich.repo.Repo`, `dulwich.client.get_transport_and_path`, the refs
container, the staging index) are modelled from the specification, each with a
doc comment starting `Modelled from the spec:` naming what is missing.

Python exceptions are modelled with `PorcelainError`; a state-mutating
operation that can raise returns its final state together with
`Option PorcelainError` (`none` = normal return), so that "state unchanged on
the error path" is directly statable.
-/

set_option autoImplicit false

namespace Porcelain

/-- Content hash of an object (a hex SHA1 in the real system). -/
abbrev ObjectId := String

/-- Name of a ref, e.g. `HEAD` or `refs/heads/master`. -/
abbrev RefName := String

/-- A ref targets a commit id directly, or another ref symbolically (spec §3, §9). -/
inductive RefTarget where
  | direct (id : ObjectId)
  | symbolic (name : RefName)
deriving DecidableEq, Repr

/-- A commit object: tree id, ordered parent ids, authorship, message (spec §3). -/
structure Commit where
  tree : ObjectId
  parents : List ObjectId
  author : String
  committer : String
  message : String
deriving DecidableEq, Repr

/-- The Python exceptions raised by the code paths in scope. -/
inductive PorcelainError where
  | valueError (msg : String)
  | keyError
  | indexError
  | fileExistsError
  | transportError
  | validationError
deriving DecidableEq, Repr

/-- Look a key up in an association list (first binding wins, as in a dict). -/
def lookupAssoc {α : Type} (l : List (RefName × α)) (n : RefName) : Option α :=
  match l.find? (fun p => p.1 == n) with
  | some p => some p.2
  | none => none

/-- The target of ref `n` in the ref store, `none` when `n` is not a key. -/
def lookupRef (refs : List (RefName × RefTarget)) (n : RefName) : Option RefTarget :=
  lookupAssoc refs n

/-- `n ∈ refs.keys()` of the refs container. -/
def containsRef (refs : List (RefName × RefTarget)) (n : RefName) : Bool :=
  (lookupRef refs n).isSome

/-- Set ref `n` to target `t`, overwriting an existing binding. -/
def setRef (refs : List (RefName × RefTarget)) (n : RefName) (t : RefTarget) :
    List (RefName × RefTarget) :=
  if containsRef refs n then
    refs.map (fun p => if p.1 == n then (n, t) else p)
  else
    refs ++ [(n, t)]

/-- A repository handle: root location, Ref Store contents, Object Store
contents (spec §3, Repository Handle). Only commit objects matter to the
claims in scope, so the object store maps ids to commits. -/
structure Repo where
  root : String
  refs : List (RefName × RefTarget)
  objects : List (ObjectId × Commit)
deriving DecidableEq, Repr

/-- `sha in object_store` / `object_store[sha]` membership. -/
def hasObject (objects : List (ObjectId × Commit)) (i : ObjectId) : Bool :=
  (objects.find? (fun p => p.1 == i)).isSome

/-- Fetch the commit stored under id `i`, if present. -/
def lookupObject (r : Repo) (i : ObjectId) : Option Commit :=
  match r.objects.find? (fun p => p.1 == i) with
  | some p => some p.2
  | none => none

/-- Iteratively resolve a ref name through symbolic links to a commit id,
with fuel to rule out cycles (spec §9: resolution is an iterative walk). -/
def resolveTarget (refs : List (RefName × RefTarget)) : Nat → RefName → Option ObjectId
  | 0, _ => none
  | fuel + 1, n =>
    match lookupRef refs n with
    | some (RefTarget.direct i) => some i
    | some (RefTarget.symbolic m) => resolveTarget refs fuel m
    | none => none

/-- Modelled from the spec: `Repo.__getitem__` committish resolution
(dulwich/repo.py, not under src/). §6: `show` "resolves committish"; a
committish is a ref name (resolved through the Ref Store, following symbolic
refs) or a direct object id. -/
def resolveCommittish (r : Repo) (c : String) : ObjectId :=
  match resolveTarget r.refs (r.refs.length + 1) c with
  | some i => i
  | none => c

/-! ## open_repo -/

/-- The argument of `open_repo`: an already-open handle or a filesystem path
(spec §9 models the duck-typed `isinstance(path_or_repo, BaseRepo)` test as an
explicit sum type). -/
inductive RepoOrPath where
  | repo (r : Repo)
  | path (p : String)
deriving Repr

/-- Modelled from the spec: the `Repo(path)` constructor (dulwich/repo.py, not
under src/). §6: opens the repository rooted at a filesystem path. The
not-a-repository failure depends on on-disk structure outside the scope of the
claims about `open_repo`; the constructed handle is rooted at the given path. -/
def Repo.atPath (p : String) : Repo :=
  { root := p, refs := [], objects := [] }

/-- `open_repo` (porcelain.py:189-193): return the handle unchanged when given
one, otherwise construct `Repo(path)`. -/
def open_repo : RepoOrPath → Repo
  | RepoOrPath.repo r => r
  | RepoOrPath.path p => Repo.atPath p

/-! ## symbolic_ref -/

/-- Modelled from the spec: `RefsContainer.set_symbolic_ref`
(dulwich/refs, not under src/). §6: `symbolic_ref` "sets HEAD to point at
refs/heads/<ref_name>", i.e. makes HEAD a symbolic ref to that path. -/
def set_symbolic_ref (r : Repo) (n : RefName) (target : RefName) : Repo :=
  { r with refs := setRef r.refs n (RefTarget.symbolic target) }

/-- `symbolic_ref` (porcelain.py:221-232): raise a ValueError when `force` is
unset and `refs/heads/<ref_name>` is not among the ref store keys, else set
HEAD symbolically. Returns the final repository state and the raised error,
if any. -/
def symbolic_ref (r : Repo) (ref_name : String) (force : Bool) :
    Repo × Option PorcelainError :=
  let ref_path := "refs/heads/" ++ ref_name
  if !force && !(containsRef r.refs ref_path) then
    (r, some (PorcelainError.valueError ("fatal: ref " ++ ref_name ++ " is not a ref")))
  else
    (set_symbolic_ref r "HEAD" ref_path, none)

/-! ## commit_tree -/

/-- Default committer identity used when the caller supplies none (spec §4.1:
fall back to a configured identity). -/
def defaultIdent : String := "configured identity"

/-- The canonical commit record built in commit-tree mode: caller-supplied
tree, caller-supplied parents (none are supplied by `commit_tree`). -/
def commitRecord (tree : ObjectId) (message : String) : Commit :=
  { tree := tree, parents := [], author := defaultIdent,
    committer := defaultIdent, message := message }

/-- Deterministic content id of a canonical commit serialization (spec §3:
id = deterministic hash of canonical serialization). -/
def hashCommit (c : Commit) : ObjectId :=
  "commit(" ++ c.tree ++ ";" ++ String.intercalate "," c.parents ++ ";" ++
    c.author ++ ";" ++ c.committer ++ ";" ++ c.message ++ ")"

/-- Modelled from the spec: `BaseRepo.do_commit` in commit-tree mode
(dulwich/repo.py, not under src/). §4.1: the distinct "commit-tree" mode
performs steps 2-3 only — serialize the canonical commit record, compute its
content id, write the object to the Object Store — "and issues no ref
update". Returns the updated repository and the new commit id. -/
def do_commit (r : Repo) (message : String) (tree : ObjectId) : Repo × ObjectId :=
  let c := commitRecord tree message
  let cid := hashCommit c
  ({ r with objects := (cid, c) :: r.objects }, cid)

/-- `commit_tree` (porcelain.py:251-258): create a new commit object for a
caller-supplied tree via `do_commit`. -/
def commit_tree (r : Repo) (tree : ObjectId) (message : String) : Repo × ObjectId :=
  do_commit r message tree

/-! ## rm -/

/-- The staging index, as the list of staged paths (entry payloads are
irrelevant to the claims in scope). -/
abbrev IndexState := List String

/-- Modelled from the spec: `del index[p]` on the in-memory staging index
(dulwich/index.py, not under src/): deleting a key that is absent raises a
KeyError, otherwise the binding is removed. -/
def delPath (idx : IndexState) (p : String) : Except PorcelainError IndexState :=
  if idx.contains p then Except.ok (idx.filter (fun q => !(q == p))) else
    Except.error PorcelainError.keyError

/-- The `for p in paths: del index[p]` loop of `rm`, acting on the in-memory
index only. -/
def rmLoop : List String → IndexState → Except PorcelainError IndexState
  | [], idx => Except.ok idx
  | p :: ps, idx =>
    match delPath idx p with
    | Except.ok idx1 => rmLoop ps idx1
    | Except.error e => Except.error e

/-- Result of a `rm` run: the on-disk index afterwards, how many times
`index.write()` ran, and the raised error, if any. -/
structure RmResult where
  disk : IndexState
  writes : Nat
  err : Option PorcelainError
deriving DecidableEq, Repr

/-- `rm` (porcelain.py:315-325): open the on-disk index, delete every listed
path from the in-memory copy, then write the index back once. A KeyError in
the loop propagates before `index.write()` is reached, so the on-disk index
is untouched. -/
def rm (disk : IndexState) (paths : List String) : RmResult :=
  match rmLoop paths disk with
  | Except.ok mem => { disk := mem, writes := 1, err := none }
  | Except.error e => { disk := disk, writes := 0, err := some e }

/-! ## show -/

/-- `show` (porcelain.py:357-370), as the data it computes: resolve the
committish to a commit (`r[committish]`), take `commit.parents[0]` — an
IndexError when the parent list is empty — look that parent up, print the
commit and diff `parent_commit.tree` against `commit.tree`. The rendering
(`print_commit`, `write_tree_diff`) is external; the result records the
printed commit and the pair of tree ids handed to the tree differ. -/
def showChanges (r : Repo) (committish : String) :
    Except PorcelainError (Commit × ObjectId × ObjectId) := do
  let cid := resolveCommittish r committish
  let commit ← match lookupObject r cid with
    | some c => Except.ok c
    | none => Except.error PorcelainError.keyError
  let p0 ← match commit.parents with
    | [] => Except.error PorcelainError.indexError
    | q :: _ => Except.ok q
  let parent_commit ← match lookupObject r p0 with
    | some c => Except.ok c
    | none => Except.error PorcelainError.keyError
  Except.ok (commit, parent_commit.tree, commit.tree)

/-! ## clone -/

/-- The filesystem as the set of existing paths, for `os.path.exists` /
`os.mkdir`. -/
structure FileSystem where
  existing : List String
deriving DecidableEq, Repr

/-- `os.mkdir`: raises FileExistsError when the path exists, else creates it. -/
def os_mkdir (fs : FileSystem) (p : String) : Except PorcelainError FileSystem :=
  if fs.existing.contains p then Except.error PorcelainError.fileExistsError
  else Except.ok { existing := p :: fs.existing }

/-- The guarded directory creation of `clone` (porcelain.py:291-292):
`if not os.path.exists(target): os.mkdir(target)`. -/
def cloneMkdir (fs : FileSystem) (p : String) : Except PorcelainError FileSystem :=
  if fs.existing.contains p then Except.ok fs else os_mkdir fs p

/-- Modelled from the spec: `get_transport_and_path` (dulwich/client.py, not
under src/). §3 Remote Handle: "derived purely from location syntax"; for the
local transport the path returned alongside the client is the location string
itself. Only the path component is modelled; the client's fetch behaviour is a
parameter of `clone`. -/
def get_transport_and_path (location : String) : String := location

/-- `host_path.split("/")[-1]`. -/
def lastSegment (s : String) : String := (s.splitOn "/").getLastD ""

/-- The target path `clone` uses (porcelain.py:288-289): the explicit target,
or the final `/`-separated segment of the transport path when omitted. -/
def cloneTarget (source : String) (target : Option String) : String :=
  match target with
  | some t => t
  | none => lastSegment (get_transport_and_path source)

/-- Modelled from the spec: `Repo.init` / `Repo.init_bare` (dulwich/repo.py,
not under src/). §3: ref entries are created at repository init; §8: before a
completed clone the target has no set HEAD — the fresh repository has an empty
object graph and an unborn symbolic HEAD at the default branch. `bare` only
suppresses working-tree state, which is outside the model. -/
def Repo.init (path : String) (bare : Bool) : Repo :=
  { root := path,
    refs := [("HEAD", RefTarget.symbolic "refs/heads/master")],
    objects := [] }

/-- Modelled from the spec: `ObjectStore.determine_wants_all`
(dulwich/object_store.py, not under src/). §4.4 step 2: the want set is "the
set of object ids advertised by the remote that are not already present
locally", which "for a pristine target degenerates to want everything
advertised". -/
def determine_wants_all (objects : List (ObjectId × Commit))
    (advertised : List (RefName × ObjectId)) : List ObjectId :=
  (advertised.map Prod.snd).filter (fun i => !(hasObject objects i))

/-- The ways `client.fetch` fails (spec §4.4): a transport-error from the
wire, or a validation-error from a hash mismatch on a fetched object. -/
inductive FetchFailure where
  | transportError
  | validationError
deriving DecidableEq, Repr

/-- The Python exception a fetch failure surfaces as. -/
def FetchFailure.toError : FetchFailure → PorcelainError
  | FetchFailure.transportError => PorcelainError.transportError
  | FetchFailure.validationError => PorcelainError.validationError

/-- Everything one `clone` run did: the filesystem afterwards, the target path
used, the refs the target repository had right after init, the repository
state at the end of the run (on a raise, the state reached so far), the want
set the negotiator's pluggable policy produced from the advertisement, the
value returned to the caller (`none` when an exception propagates), and the
raised error, if any. -/
structure CloneOutcome where
  fs : FileSystem
  targetPath : String
  initRefs : List (RefName × RefTarget)
  finalRepo : Repo
  wants : List ObjectId
  returned : Option Repo
  err : Option PorcelainError
deriving Repr

/-- `clone` (porcelain.py:277-301): resolve the transport path, default the
target to the path's last segment, create the target directory if absent,
initialize the repository, run `client.fetch` with
`determine_wants=r.object_store.determine_wants_all`, then set
`r["HEAD"] = remote_refs["HEAD"]` and return `r`.

The transport session is a parameter: `advertised` is the remote's advertised
ref-to-commit-id mapping, `stored` the objects its stream wrote into the
object store (on failure, the harmless partial content of §4.4 step 3), and
`failure` the transport- or validation-error raised by `client.fetch`, when
any. On such a raise no ref is touched; on success the fetch returns
`advertised` as `remote_refs` and HEAD alone is updated. -/
def clone (fs : FileSystem) (source : String) (target : Option String)
    (bare : Bool) (advertised : List (RefName × ObjectId))
    (stored : List (ObjectId × Commit)) (failure : Option FetchFailure) :
    CloneOutcome :=
  let tgt := cloneTarget source target
  match cloneMkdir fs tgt with
  | Except.error e =>
    { fs := fs, targetPath := tgt, initRefs := [], finalRepo := Repo.init tgt bare,
      wants := [], returned := none, err := some e }
  | Except.ok fs1 =>
    let r := Repo.init tgt bare
    let wants := determine_wants_all r.objects advertised
    let r1 : Repo := { r with objects := stored ++ r.objects }
    match failure with
    | some f =>
      { fs := fs1, targetPath := tgt, initRefs := r.refs, finalRepo := r1,
        wants := wants, returned := none, err := some f.toError }
    | none =>
      match lookupAssoc advertised "HEAD" with
      | none =>
        { fs := fs1, targetPath := tgt, initRefs := r.refs, finalRepo := r1,
          wants := wants, returned := none, err := some PorcelainError.keyError }
      | some h =>
        let r2 : Repo := { r1 with refs := setRef r1.refs "HEAD" (RefTarget.direct h) }
        { fs := fs1, targetPath := tgt, initRefs := r.refs, finalRepo := r2,
          wants := wants, returned := some r2, err := none }

/-- The direct (non-symbolic) bindings of a ref store, as a ref-to-commit-id
mapping; used to compare a repository's refs with a remote advertisement. -/
def directRefs (refs : List (RefName × RefTarget)) : List (RefName × ObjectId) :=
  refs.filterMap (fun p =>
    match p.2 with
    | RefTarget.direct i => some (p.1, i)
    | RefTarget.symbolic _ => none)

/-- The ref store a freshly initialized target repository has (`Repo.init`). -/
def cloneInitRefs : List (RefName × RefTarget) :=
  [("HEAD", RefTarget.symbolic "refs/heads/master")]

/-- The filesystem after the guarded mkdir step of `clone`. -/
def cloneFs (fs : FileSystem) (tgt : String) : FileSystem :=
  if fs.existing.contains tgt then fs else { existing := tgt :: fs.existing }

/-- The target repository when the fetch step did not complete: post-init
refs, with whatever objects the interrupted stream already stored. -/
def cloneFailRepo (tgt : String) (stored : List (ObjectId × Commit)) : Repo :=
  { root := tgt, refs := cloneInitRefs, objects := stored ++ [] }

/-- The target repository after a completed clone: fetched objects stored and
HEAD repointed at the remote's advertised HEAD commit `h`. -/
def cloneOkRepo (tgt : String) (stored : List (ObjectId × Commit)) (h : ObjectId) : Repo :=
  { root := tgt, refs := [("HEAD", RefTarget.direct h)], objects := stored ++ [] }

/-! ## Concrete repositories used to evaluate the model -/

/-- A parentless (root) commit. -/
def rootCommit : Commit :=
  { tree := "t0", parents := [], author := "a", committer := "a", message := "root" }

/-- A commit whose first parent is the root commit. -/
def childCommit : Commit :=
  { tree := "t1", parents := ["c0"], author := "a", committer := "a", message := "child" }

/-- A two-commit repository whose HEAD points at the child commit. -/
def showDemoRepo : Repo :=
  { root := ".",
    refs := [("HEAD", RefTarget.direct "c1")],
    objects := [("c0", rootCommit), ("c1", childCommit)] }

/-- A repository whose ref store holds the single branch `refs/heads/dev`. -/
def devRepo : Repo :=
  { root := ".", refs := [("refs/heads/dev", RefTarget.direct "c9")], objects := [] }

/-! ## Association-list and ref-store lemmas -/

theorem lookupAssoc_cons {α : Type} (p : RefName × α) (l : List (RefName × α)) (n : RefName) :
    lookupAssoc (p :: l) n = if p.1 == n then some p.2 else lookupAssoc l n := by
  cases hb : p.1 == n with
  | true => simp [lookupAssoc, List.find?_cons, hb]
  | false => simp [lookupAssoc, List.find?_cons, hb]

theorem lookupRef_setRef_self (refs : List (RefName × RefTarget)) (n : RefName) (t : RefTarget) :
    lookupRef (setRef refs n t) n = some t := by
  induction refs with
  | nil => simp [setRef, containsRef, lookupRef, lookupAssoc]
  | cons p ps ih =>
    cases hb : p.1 == n with
    | true =>
      simp only [setRef, containsRef, lookupRef, lookupAssoc_cons, hb, if_true,
        Option.isSome_some, List.map_cons]
      simp [lookupAssoc_cons]
    | false =>
      have hstep : containsRef (p :: ps) n = containsRef ps n := by
        simp [containsRef, lookupRef, lookupAssoc_cons, hb]
      cases hc : containsRef ps n with
      | true =>
        have ihc := ih
        simp only [setRef, hstep, hc, if_true, List.map_cons, hb] at ihc ⊢
        simp only [lookupRef, lookupAssoc_cons, hb] at ihc ⊢
        simpa [hb] using ihc
      | false =>
        have ihc := ih
        simp only [setRef, hstep, hc, if_false, List.cons_append, Bool.false_eq_true] at ihc ⊢
        simp only [lookupRef, lookupAssoc_cons, hb] at ihc ⊢
        simpa [hb] using ihc

/-- The guarded `mkdir` of `clone` never raises: it leaves the filesystem
alone when the target exists and creates the directory when it does not. -/
theorem cloneMkdir_eq (fs : FileSystem) (p : String) :
    cloneMkdir fs p
      = Except.ok (if fs.existing.contains p then fs else { existing := p :: fs.existing }) := by
  cases hc : fs.existing.contains p with
  | true =>
    have hm : p ∈ fs.existing := by simpa using hc
    simp [cloneMkdir, hc, hm]
  | false =>
    have hm : p ∉ fs.existing := by simpa using hc
    simp [cloneMkdir, os_mkdir, hc, hm]

/-- On a pristine object store the spec's want policy keeps every advertised
object id. -/
theorem determine_wants_all_pristine (advertised : List (RefName × ObjectId)) :
    determine_wants_all [] advertised = advertised.map Prod.snd := by
  simp [determine_wants_all, hasObject, List.find?]

/-- When the deletion loop of `rm` succeeds, the in-memory index it produces is
the on-disk index minus exactly the listed paths. -/
theorem rmLoop_ok_filter :
    ∀ (paths : List String) (disk mem : IndexState),
      rmLoop paths disk = Except.ok mem →
      mem = disk.filter (fun q => !(paths.contains q))
  | [], disk, mem, h => by
    simp only [rmLoop] at h
    cases h
    simp
  | p :: ps, disk, mem, h => by
    simp only [rmLoop] at h
    cases hd : delPath disk p with
    | error e => rw [hd] at h; cases h
    | ok disk1 =>
      rw [hd] at h
      have ih := rmLoop_ok_filter ps disk1 mem h
      have hc : disk.contains p = true := by
        by_contra hcn
        simp only [delPath, Bool.not_eq_true] at hd hcn
        rw [hcn] at hd
        cases hd
      simp only [delPath, hc, if_true] at hd
      cases hd
      rw [ih, List.filter_filter]
      simp only [List.contains_cons, Bool.not_or]
      congr 1
      funext q
      exact Bool.and_comm _ _

/-! ## Claim theorems -/

/-- C6: `open_repo` applied to an already-open repository handle returns that
very handle (idempotent wrapping, no duplicate construction); applied to a
path it constructs the repository handle rooted at that path. -/
theorem open_repo_identity :
    (∀ r : Repo, open_repo (RepoOrPath.repo r) = r)
  ∧ (∀ p : String, open_repo (RepoOrPath.path p) = Repo.atPath p) :=
  ⟨fun _ => rfl, fun _ => rfl⟩

/-- C4: `commit_tree` writes exactly one new commit object for the supplied
tree and returns its id, while the Ref Store (HEAD and every other entry) is
identical before and after the call. -/
theorem commit_tree_writes_object_no_ref_update (r : Repo) (tree : ObjectId) (message : String) :
    ((commit_tree r tree message).1).refs = r.refs
  ∧ (commit_tree r tree message).1.objects
      = (hashCommit (commitRecord tree message), commitRecord tree message) :: r.objects
  ∧ (commit_tree r tree message).2 = hashCommit (commitRecord tree message)
  ∧ (commit_tree r tree message).1.root = r.root :=
  ⟨rfl, rfl, rfl, rfl⟩

/-- C5: `symbolic_ref` raises a ValueError exactly when `force` is unset and
`refs/heads/<ref_name>` is not a key of the ref store; the raise leaves the
repository untouched, and a normal return leaves HEAD a symbolic ref to
`refs/heads/<ref_name>`. -/
theorem symbolic_ref_spec (r : Repo) (ref_name : String) (force : Bool) :
    ((symbolic_ref r ref_name force).2.isSome = true
        ↔ (force = false ∧ containsRef r.refs ("refs/heads/" ++ ref_name) = false))
  ∧ ((symbolic_ref r ref_name force).2.isSome = true → (symbolic_ref r ref_name force).1 = r)
  ∧ ((symbolic_ref r ref_name force).2 = none →
      lookupRef (symbolic_ref r ref_name force).1.refs "HEAD"
        = some (RefTarget.symbolic ("refs/heads/" ++ ref_name))) := by
  cases force with
  | false =>
    cases hc : containsRef r.refs ("refs/heads/" ++ ref_name) with
    | false => simp [symbolic_ref, hc]
    | true => simp [symbolic_ref, hc, set_symbolic_ref, lookupRef_setRef_self]
  | true => simp [symbolic_ref, set_symbolic_ref, lookupRef_setRef_self]

/-- Witness for C5: on `devRepo`, `symbolic_ref` with `force` unset raises for
the absent branch `feature` leaving the repository untouched, and succeeds for
the present branch `dev`, repointing HEAD. -/
theorem symbolic_ref_spec_witness :
    (symbolic_ref devRepo "feature" false).1 = devRepo
  ∧ lookupRef (symbolic_ref devRepo "dev" false).1.refs "HEAD"
      = some (RefTarget.symbolic "refs/heads/dev") := by
  refine ⟨(symbolic_ref_spec devRepo "feature" false).2.1 (by decide),
    (symbolic_ref_spec devRepo "dev" false).2.2 (by decide)⟩

/-- C9: `rm` performs its single `index.write()` only after every listed path
was removed from the in-memory index — the written index is the on-disk one
minus exactly the listed paths — and when a deletion raises (a path not
staged), no write happens and the on-disk index is unchanged. -/
theorem rm_single_write (disk : IndexState) (paths : List String) :
    ((rm disk paths).err = none →
        (rm disk paths).writes = 1
      ∧ (rm disk paths).disk = disk.filter (fun q => !(paths.contains q)))
  ∧ ((rm disk paths).err ≠ none →
        (rm disk paths).writes = 0 ∧ (rm disk paths).disk = disk) := by
  cases hl : rmLoop paths disk with
  | ok mem =>
    refine ⟨fun _ => ⟨by simp [rm, hl], ?_⟩, fun hne => absurd (by simp [rm, hl]) hne⟩
    have := rmLoop_ok_filter paths disk mem hl
    simp [rm, hl, this]
  | error e =>
    exact ⟨fun hn => by simp [rm, hl] at hn, fun _ => ⟨by simp [rm, hl], by simp [rm, hl]⟩⟩

/-- Witness for C9: removing the staged path `a` from index `[a, b]` writes
once and leaves `[b]`; removing the unstaged path `c` writes nothing and
leaves the on-disk index `[a, b]` unchanged. -/
theorem rm_single_write_witness :
    ((rm ["a", "b"] ["a"]).writes = 1 ∧ (rm ["a", "b"] ["a"]).disk = ["b"])
  ∧ ((rm ["a", "b"] ["c"]).writes = 0 ∧ (rm ["a", "b"] ["c"]).disk = ["a", "b"]) := by
  refine ⟨⟨((rm_single_write ["a", "b"] ["a"]).1 (by decide)).1, ?_⟩,
    ((rm_single_write ["a", "b"] ["c"]).2 (by decide)).1,
    ((rm_single_write ["a", "b"] ["c"]).2 (by decide)).2⟩
  have h := ((rm_single_write ["a", "b"] ["a"]).1 (by decide)).2
  rw [h]
  decide

/-- C2 (code evaluated at the failing input): on `showDemoRepo`, `show` of the
root commit `c0` — whose parent list is empty — raises an IndexError at
`commit.parents[0]` instead of diffing against the empty tree, while `show` of
`c1` (and of the committish `HEAD` resolving to `c1`) renders the commit and
diffs its first parent's tree `t0` against its own tree `t1`. -/
theorem show_root_commit_raises :
    showChanges showDemoRepo "c0" = Except.error PorcelainError.indexError
  ∧ showChanges showDemoRepo "c1" = Except.ok (childCommit, "t0", "t1")
  ∧ showChanges showDemoRepo "HEAD" = Except.ok (childCommit, "t0", "t1") := by
  refine ⟨?_, ?_, ?_⟩ <;> rfl

/-- Unfolding of `clone` with the guarded mkdir resolved: the directory step
never raises, so a run is determined by the fetch failure and the
advertisement. -/
theorem clone_eq (fs : FileSystem) (source : String) (target : Option String) (bare : Bool)
    (advertised : List (RefName × ObjectId)) (stored : List (ObjectId × Commit))
    (failure : Option FetchFailure) :
    clone fs source target bare advertised stored failure
      = match failure with
        | some f =>
          { fs := cloneFs fs (cloneTarget source target),
            targetPath := cloneTarget source target,
            initRefs := cloneInitRefs,
            finalRepo := cloneFailRepo (cloneTarget source target) stored,
            wants := determine_wants_all [] advertised,
            returned := none, err := some f.toError }
        | none =>
          match lookupAssoc advertised "HEAD" with
          | none =>
            { fs := cloneFs fs (cloneTarget source target),
              targetPath := cloneTarget source target,
              initRefs := cloneInitRefs,
              finalRepo := cloneFailRepo (cloneTarget source target) stored,
              wants := determine_wants_all [] advertised,
              returned := none, err := some PorcelainError.keyError }
          | some h =>
            { fs := cloneFs fs (cloneTarget source target),
              targetPath := cloneTarget source target,
              initRefs := cloneInitRefs,
              finalRepo := cloneOkRepo (cloneTarget source target) stored h,
              wants := determine_wants_all [] advertised,
              returned := some (cloneOkRepo (cloneTarget source target) stored h),
              err := none } := by
  unfold clone
  simp only [cloneMkdir_eq]
  cases failure with
  | some f => rfl
  | none =>
    cases hx : lookupAssoc advertised "HEAD" with
    | none => rfl
    | some h => rfl

/-- C1: when the fetch step of `clone` raises (a transport- or
validation-error), the target repository's ref store — HEAD included — is
exactly what repository init left it, and the exception propagates (nothing is
returned); HEAD is set to the remote's advertised HEAD target only on the
fetch-complete path (and only when the advertisement resolves one, otherwise
the failed lookup also leaves the refs untouched). -/
theorem clone_fetch_atomic (fs : FileSystem) (source : String) (target : Option String)
    (bare : Bool) (advertised : List (RefName × ObjectId)) (stored : List (ObjectId × Commit)) :
    (∀ f : FetchFailure,
        (clone fs source target bare advertised stored (some f)).finalRepo.refs
          = (clone fs source target bare advertised stored (some f)).initRefs
      ∧ (clone fs source target bare advertised stored (some f)).returned = none
      ∧ (clone fs source target bare advertised stored (some f)).err = some f.toError)
  ∧ (lookupAssoc advertised "HEAD" = none →
        (clone fs source target bare advertised stored none).finalRepo.refs
          = (clone fs source target bare advertised stored none).initRefs
      ∧ (clone fs source target bare advertised stored none).returned = none)
  ∧ (∀ h : ObjectId, lookupAssoc advertised "HEAD" = some h →
      lookupRef (clone fs source target bare advertised stored none).finalRepo.refs "HEAD"
        = some (RefTarget.direct h)) := by
  refine ⟨fun f => ?_, fun hn => ?_, fun h hh => ?_⟩
  · rw [clone_eq]
    exact ⟨rfl, rfl, rfl⟩
  · rw [clone_eq, hn]
    exact ⟨rfl, rfl⟩
  · rw [clone_eq, hh]
    rfl

/-- Witness for C1: a transport failure leaves the fresh target's refs at
their post-init value, and the successful run repoints HEAD at the advertised
`c1`. -/
theorem clone_fetch_atomic_witness :
    ((clone { existing := [] } "srv/proj" (some "proj") false [("HEAD", "c1")] []
        (some FetchFailure.transportError)).finalRepo.refs
      = (clone { existing := [] } "srv/proj" (some "proj") false [("HEAD", "c1")] []
        (some FetchFailure.transportError)).initRefs)
  ∧ lookupRef (clone { existing := [] } "srv/proj" (some "proj") false [("HEAD", "c1")] []
        none).finalRepo.refs "HEAD" = some (RefTarget.direct "c1") :=
  ⟨((clone_fetch_atomic { existing := [] } "srv/proj" (some "proj") false [("HEAD", "c1")] []).1
      FetchFailure.transportError).1,
    (clone_fetch_atomic { existing := [] } "srv/proj" (some "proj") false [("HEAD", "c1")] []).2.2
      "c1" rfl⟩

/-- C3 counterexample: a successful clone run does not return the mapping of
updated ref names to commit ids — it returns the new repository; even that
repository's ref store, read as a ref-to-commit-id mapping, differs from the
remote's advertised mapping, since only HEAD was updated. -/
theorem clone_return_is_not_the_refs_mapping :
    (clone { existing := [] } "srv/proj" (some "proj") false
        [("HEAD", "c1"), ("refs/heads/master", "c1")] [] none).err = none
  ∧ Option.map (fun r => directRefs r.refs)
      (clone { existing := [] } "srv/proj" (some "proj") false
        [("HEAD", "c1"), ("refs/heads/master", "c1")] [] none).returned
      ≠ some [("HEAD", "c1"), ("refs/heads/master", "c1")] := by
  refine ⟨rfl, ?_⟩
  decide

/-- C3 amended: a successful clone returns the new repository handle itself —
the run's final state, whose HEAD has been set to the remote's advertised HEAD
target; the advertised ref mapping produced by the fetch step is consumed
internally and not returned. -/
theorem clone_returns_new_repository (fs : FileSystem) (source : String)
    (target : Option String) (bare : Bool) (advertised : List (RefName × ObjectId))
    (stored : List (ObjectId × Commit)) (h : ObjectId) :
    lookupAssoc advertised "HEAD" = some h →
      (clone fs source target bare advertised stored none).returned
        = some (clone fs source target bare advertised stored none).finalRepo
      ∧ lookupRef (clone fs source target bare advertised stored none).finalRepo.refs "HEAD"
        = some (RefTarget.direct h)
      ∧ (clone fs source target bare advertised stored none).err = none := by
  intro hh
  rw [clone_eq, hh]
  exact ⟨rfl, rfl, rfl⟩

/-- Witness for C3: a concrete successful run returns its final repository. -/
theorem clone_returns_new_repository_witness :
    (clone { existing := [] } "srv" (some "p") false [("HEAD", "c7")] [] none).returned
      = some (clone { existing := [] } "srv" (some "p") false [("HEAD", "c7")] [] none).finalRepo :=
  (clone_returns_new_repository { existing := [] } "srv" (some "p") false
    [("HEAD", "c7")] [] "c7" rfl).1

/-- C7: when the target argument is omitted, `clone` uses the final
`/`-separated segment of the source location for the target repository. -/
theorem clone_default_target (fs : FileSystem) (source : String) (bare : Bool)
    (advertised : List (RefName × ObjectId)) (stored : List (ObjectId × Commit))
    (failure : Option FetchFailure) :
    (clone fs source none bare advertised stored failure).targetPath
      = (source.splitOn "/").getLastD "" := by
  rw [clone_eq]
  cases failure with
  | some f => rfl
  | none =>
    cases hx : lookupAssoc advertised "HEAD" with
    | none => rfl
    | some h => rfl

/-- C8: the want set a `clone` run hands the transport is the pluggable
`determine_wants_all` policy applied to the freshly initialized (pristine)
target's object store and the remote's advertised ref mapping, which is every
advertised object id. -/
theorem clone_wants_everything (fs : FileSystem) (source : String) (target : Option String)
    (bare : Bool) (advertised : List (RefName × ObjectId)) (stored : List (ObjectId × Commit))
    (failure : Option FetchFailure) :
    (clone fs source target bare advertised stored failure).wants
      = determine_wants_all (Repo.init (cloneTarget source target) bare).objects advertised
  ∧ (clone fs source target bare advertised stored failure).wants
      = advertised.map Prod.snd := by
  have hw : (clone fs source target bare advertised stored failure).wants
      = determine_wants_all [] advertised := by
    rw [clone_eq]
    cases failure with
    | some f => rfl
    | none =>
      cases hx : lookupAssoc advertised "HEAD" with
      | none => rfl
      | some h => rfl
  exact ⟨hw, hw.trans (determine_wants_all_pristine advertised)⟩

/-- C10: `clone` never raises the FileExistsError of `os.mkdir`: an existing
target directory is left as it is (the directory is created only when absent)
and the new repository is initialized at the target path regardless. -/
theorem clone_target_may_exist (fs : FileSystem) (source : String) (target : Option String)
    (bare : Bool) (advertised : List (RefName × ObjectId)) (stored : List (ObjectId × Commit))
    (failure : Option FetchFailure) :
    ((clone fs source target bare advertised stored failure).err
        ≠ some PorcelainError.fileExistsError)
  ∧ (fs.existing.contains (cloneTarget source target) = true →
      (clone fs source target bare advertised stored failure).fs = fs)
  ∧ (fs.existing.contains (cloneTarget source target) = false →
      (clone fs source target bare advertised stored failure).fs
        = { existing := cloneTarget source target :: fs.existing })
  ∧ (clone fs source target bare advertised stored failure).finalRepo.root
      = cloneTarget source target := by
  have hfs : (clone fs source target bare advertised stored failure).fs
      = if fs.existing.contains (cloneTarget source target) then fs
        else { existing := cloneTarget source target :: fs.existing } := by
    rw [clone_eq]
    cases failure with
    | some f => rfl
    | none =>
      cases hx : lookupAssoc advertised "HEAD" with
      | none => rfl
      | some h => rfl
  refine ⟨?_, fun hc => ?_, fun hc => ?_, ?_⟩
  · rw [clone_eq]
    cases failure with
    | some f =>
      cases f with
      | transportError =>
        exact fun hcontra => PorcelainError.noConfusion (Option.some.inj hcontra)
      | validationError =>
        exact fun hcontra => PorcelainError.noConfusion (Option.some.inj hcontra)
    | none =>
      cases hx : lookupAssoc advertised "HEAD" with
      | none => exact fun hcontra => PorcelainError.noConfusion (Option.some.inj hcontra)
      | some h => exact fun hcontra => Option.noConfusion hcontra
  · rw [hfs, if_pos hc]
  · rw [hfs, if_neg (fun hcc => Bool.noConfusion (hc ▸ hcc))]
  · rw [clone_eq]
    cases failure with
    | some f => rfl
    | none =>
      cases hx : lookupAssoc advertised "HEAD" with
      | none => rfl
      | some h => rfl

/-- Witness for C10: cloning into the existing directory `proj` leaves the
filesystem unchanged; cloning to the absent directory `q` creates it. -/
theorem clone_target_may_exist_witness :
    (clone { existing := ["proj"] } "srv" (some "proj") false [("HEAD", "c1")] [] none).fs
      = { existing := ["proj"] }
  ∧ (clone { existing := ["proj"] } "srv" (some "q") false [("HEAD", "c1")] [] none).fs
      = { existing := ["q", "proj"] } :=
  ⟨(clone_target_may_exist { existing := ["proj"] } "srv" (some "proj") false
      [("HEAD", "c1")] [] none).2.1 (by decide),
    (clone_target_may_exist { existing := ["proj"] } "srv" (some "q") false
      [("HEAD", "c1")] [] none).2.2.1 (by decide)⟩

end Porcelain
